import Mathlib

/-!
Shallow embedding of the stock-dashboard frontend core
(`src/unnamed/part_000`, the `StockNews` component, and
`src/frontend/src/App.tsx`, the `App` component), together with
theorems settling the specification claims about it.

Numbers are modelled as rationals, calendar dates as explicit
year/month/day records ordered lexicographically (`setFullYear`
becomes a plain year decrement), and the touch handlers as a state
machine consuming events that carry the already-computed
two-point distance (the JS handlers derive it with `Math.hypot`).
-/

namespace StockPredict

/-! ## Calendar dates -/

/-- Calendar date at day granularity, ordered lexicographically.
Models the JS `Date` values compared in `getFilteredHistoryData`. -/
structure CalDate where
  year : Int
  month : Nat
  day : Nat
deriving DecidableEq

/-- Lexicographic comparison of calendar dates, modelling `Date` `>=`/`<=`. -/
def CalDate.le (a b : CalDate) : Bool :=
  if a.year < b.year then true
  else if b.year < a.year then false
  else if a.month < b.month then true
  else if b.month < a.month then false
  else decide (a.day ≤ b.day)

/-- Model of `cutoffDate.setFullYear(now.getFullYear() - n)`: the year is
decremented, month and day are kept. -/
def subYears (d : CalDate) (n : Nat) : CalDate :=
  { d with year := d.year - n }

/-- Month abbreviation as produced by date-fns `format` with pattern `MMM`. -/
def monthAbbrev : Nat → String
  | 1 => "Jan" | 2 => "Feb" | 3 => "Mar" | 4 => "Apr"
  | 5 => "May" | 6 => "Jun" | 7 => "Jul" | 8 => "Aug"
  | 9 => "Sep" | 10 => "Oct" | 11 => "Nov" | 12 => "Dec"
  | _ => ""

/-- Two-digit zero-padded rendering of a day number (`dd`). -/
def pad2 (n : Nat) : String :=
  if n < 10 then "0" ++ toString n else toString n

/-- Model of date-fns `format(d, 'MMM dd, yyyy')` used for the historical
chart labels. -/
def formatMMMddyyyy (d : CalDate) : String :=
  monthAbbrev d.month ++ " " ++ pad2 d.day ++ ", " ++ toString d.year

/-- Split a character sequence at dashes. -/
def splitDash : List Char → List (List Char)
  | [] => [[]]
  | c :: t =>
    if c = '-' then [] :: splitDash t
    else
      match splitDash t with
      | h :: r => (c :: h) :: r
      | [] => [[c]]

/-- Decimal digit characters to a natural number. -/
def digitsToNat (l : List Char) : Nat :=
  l.foldl (fun acc c => acc * 10 + (c.toNat - 48)) 0

/-- Parse an ISO `YYYY-MM-DD` string into a `CalDate` (model of
`parseISO` / `new Date(string)` for the date strings this app receives). -/
def parseISODate (s : String) : CalDate :=
  match splitDash s.data with
  | [y, m, d] => { year := digitsToNat y, month := digitsToNat m, day := digitsToNat d }
  | _ => { year := 0, month := 0, day := 0 }

/-! ## Data model of the component -/

/-- The `zoomLevel` state: `'all' | '10y' | '5y' | '1y'`. -/
inductive ZoomLevel where
  | all
  | y10
  | y5
  | y1
deriving DecidableEq

/-- The `StockHistoryData` interface (field `open` renamed to `openPrice`,
`open` being a Lean keyword). -/
structure StockHistoryData where
  date : CalDate
  openPrice : ℚ
  high : ℚ
  low : ℚ
  close : ℚ
  volume : ℚ
  price : ℚ
deriving DecidableEq

/-- The `PredictionData` interface. -/
structure PredictionData where
  dates : List String
  predictions : List ℚ
  upper_bound : List ℚ
  lower_bound : List ℚ
  last_actual : ℚ
  last_actual_date : String
deriving DecidableEq

/-- The `NewsItem` interface. -/
structure NewsItem where
  title : String
  publisher : String
  link : String
  published_at : Int
  thumbnail : String
deriving DecidableEq

/-- One chart.js dataset as built by `getChartData`: a display label and the
value sequence, `none` standing for JS `null` entries. Style attributes
(colors, dashes) are irrelevant to the claims and omitted. -/
structure ChartDataset where
  label : Option String
  data : List (Option ℚ)
deriving DecidableEq

/-- The chart.js data object: labels plus datasets. -/
structure ChartData where
  labels : List String
  datasets : List ChartDataset
deriving DecidableEq

/-! ## TimeWindowFilter: `getFilteredHistoryData` -/

/-- Model of `getFilteredHistoryData` (part_000 lines 663-684), with the
component state `historyData`/`zoomLevel` and the instant `now` made
explicit parameters. -/
def getFilteredHistoryData (historyData : List StockHistoryData)
    (zoomLevel : ZoomLevel) (now : CalDate) : List StockHistoryData :=
  if historyData.length = 0 then []
  else
    match zoomLevel with
    | .y1 => historyData.filter fun item => (subYears now 1).le item.date
    | .y5 => historyData.filter fun item => (subYears now 5).le item.date
    | .y10 => historyData.filter fun item => (subYears now 10).le item.date
    | .all => historyData

/-! ## SeriesComposer: `getChartData` -/

/-- Model of `getChartData` (part_000 lines 764-816).  The filtered history
is passed directly (in the source it is recomputed via
`getFilteredHistoryData`), and `predictionData` is the component state. -/
def getChartData (filteredData : List StockHistoryData)
    (predictionData : Option PredictionData) : ChartData :=
  let datasets : List ChartDataset :=
    [{ label := some "Historical Price",
       data := filteredData.map fun item => some item.price }]
  let datasets : List ChartDataset :=
    match predictionData with
    | none => datasets
    | some p =>
        datasets ++
          [{ label := some "Predicted Price",
             data := List.replicate filteredData.length none ++ p.predictions.map some },
           { label := some "Confidence Interval",
             data := List.replicate filteredData.length none ++ p.upper_bound.map some },
           { label := none,
             data := List.replicate filteredData.length none ++ p.lower_bound.map some }]
  { labels :=
      (filteredData.map fun item => formatMMMddyyyy item.date) ++
        (match predictionData with
         | some p => p.dates
         | none => []),
    datasets := datasets }

/-- Modelled from the spec: "Labels = formatted dates of filteredHistory
followed by formatted dates of prediction.dates (empty if prediction
absent)" — both label segments go through the same date-formatting step.
This is the spec's description of the labels, to be compared with the
labels actually produced by `getChartData`. -/
def chartLabelsSpec (filteredData : List StockHistoryData)
    (predictionData : Option PredictionData) : List String :=
  (filteredData.map fun item => formatMMMddyyyy item.date) ++
    (match predictionData with
     | some p => p.dates.map fun s => formatMMMddyyyy (parseISODate s)
     | none => [])

/-! ## GestureZoomController: touch handlers -/

/-- The gesture-relevant component state: `zoomLevel`,
`touchStartDistance` and `isZooming`. -/
structure GestureState where
  zoomLevel : ZoomLevel
  touchStartDistance : Option ℚ
  isZooming : Bool
deriving DecidableEq

/-- One widening step (pinch in, `zoomDelta < 0`): the
`'1y' | '5y' | '10y' | default` switch in `handleTouchMove`. -/
def zoomOutStep : ZoomLevel → ZoomLevel
  | .y1 => .y5
  | .y5 => .y10
  | .y10 => .all
  | z => z

/-- One narrowing step (pinch out, `zoomDelta > 0`): the
`'all' | '10y' | '5y' | default` switch in `handleTouchMove`. -/
def zoomInStep : ZoomLevel → ZoomLevel
  | .all => .y10
  | .y10 => .y5
  | .y5 => .y1
  | z => z

/-- JS truthiness of the `touchStartDistance` state slot
(`null` and `0` are both falsy). -/
def touchTruthy : Option ℚ → Bool
  | none => false
  | some d => decide (d ≠ 0)

/-- Model of `handleTouchStart` (part_000 lines 607-617); `numTouches` is
`e.touches.length` and `dist` the computed two-point distance. -/
def handleTouchStart (numTouches : Nat) (dist : ℚ) (s : GestureState) : GestureState :=
  if numTouches = 2 then
    { s with touchStartDistance := some dist, isZooming := true }
  else s

/-- Model of `handleTouchMove` (part_000 lines 619-656); `currentDistance`
is the computed two-point distance of the move event. -/
def handleTouchMove (numTouches : Nat) (currentDistance : ℚ) (s : GestureState) : GestureState :=
  if s.isZooming && numTouches == 2 && touchTruthy s.touchStartDistance then
    let zoomDelta := currentDistance - s.touchStartDistance.getD 0
    if |zoomDelta| > 50 then
      { s with
          zoomLevel :=
            if zoomDelta < 0 then zoomOutStep s.zoomLevel else zoomInStep s.zoomLevel,
          touchStartDistance := some currentDistance }
    else s
  else s

/-- Model of `handleTouchEnd` (part_000 lines 658-661). -/
def handleTouchEnd (s : GestureState) : GestureState :=
  { s with isZooming := false, touchStartDistance := none }

/-- A touch event at the distance level of abstraction. -/
inductive TouchEvent where
  | start (numTouches : Nat) (dist : ℚ)
  | move (numTouches : Nat) (dist : ℚ)
  | finish
deriving DecidableEq

/-- Dispatch one touch event to its handler. -/
def stepEvent (s : GestureState) : TouchEvent → GestureState
  | .start n d => handleTouchStart n d s
  | .move n d => handleTouchMove n d s
  | .finish => handleTouchEnd s

/-- Run a sequence of touch events from a state. -/
def runEvents (s : GestureState) (events : List TouchEvent) : GestureState :=
  events.foldl stepEvent s

/-- The IDLE gesture state at a given window selector. -/
def idleState (z : ZoomLevel) : GestureState :=
  { zoomLevel := z, touchStartDistance := none, isZooming := false }

/-- Position of a selector on the span axis, narrowest first
(`1y` = 0, `5y` = 1, `10y` = 2, `all` = 3), used to measure steps. -/
def levelIdx : ZoomLevel → Nat
  | .y1 => 0
  | .y5 => 1
  | .y10 => 2
  | .all => 3

/-! ## AutocompleteRanker: the sort in `fetchSuggestions` -/

/-- The `StockSuggestion` interface of `App.tsx`. -/
structure StockSuggestion where
  symbol : String
  name : String
  exchange : String
deriving DecidableEq

/-- Model of JS `toUpperCase()` (ASCII): uppercase every
character. -/
def jsToUpper (s : String) : String :=
  String.mk (s.data.map Char.toUpper)

/-- Model of JS `s.startsWith(pat)` on the character sequences. -/
def strStartsWith (s pat : String) : Bool :=
  decide (List.IsPrefix pat.data s.data)

/-- Model of JS `s.includes(pat)` (contiguous-substring test) on the
character sequences. -/
def strContains (s pat : String) : Bool :=
  decide (List.IsInfix pat.data s.data)

/-- The comparator passed to `.sort` in `fetchSuggestions`
(App.tsx lines 76-91), returning the JS comparator value. -/
def suggestionCmp (a b : StockSuggestion) (query : String) : Int :=
  if a.symbol = jsToUpper query then -1
  else if b.symbol = jsToUpper query then 1
  else if strStartsWith a.symbol (jsToUpper query) && !strStartsWith b.symbol (jsToUpper query) then -1
  else if !strStartsWith a.symbol (jsToUpper query) && strStartsWith b.symbol (jsToUpper query) then 1
  else if strContains a.symbol (jsToUpper query) && !strContains b.symbol (jsToUpper query) then -1
  else if !strContains a.symbol (jsToUpper query) && strContains b.symbol (jsToUpper query) then 1
  else 0

/-- The "should not come after" relation induced by the comparator:
`a` may precede `b` iff the comparator does not order `b` strictly
before `a`. -/
def suggestionLE (query : String) (a b : StockSuggestion) : Bool :=
  decide (suggestionCmp a b query ≤ 0)

/-- The ranking performed by `fetchSuggestions`: the empty-query guard
(`!query || query.length < 1`) followed by the stable sort of the
suggestions by the comparator (JS `Array.prototype.sort` is required to be
stable; it is modelled by the stable `List.mergeSort`). -/
def rankSuggestions (results : List StockSuggestion) (query : String) : List StockSuggestion :=
  if query.length < 1 then []
  else results.mergeSort (suggestionLE query)

/-- Relevance band of a suggestion for a query: 0 exact symbol match,
1 symbol starts with the query, 2 symbol contains the query, 3 otherwise.
Proof-side characterization of the comparator. -/
def matchRank (a : StockSuggestion) (query : String) : Nat :=
  if a.symbol = jsToUpper query then 0
  else if strStartsWith a.symbol (jsToUpper query) then 1
  else if strContains a.symbol (jsToUpper query) then 2
  else 3

/-! ## AnalysisSummarizer: trend in `getMarketFactors` -/

/-- The first `every` in `getMarketFactors` (part_000 lines 830-831):
every element is `>=` its predecessor. -/
def isNonDecreasing : List ℚ → Bool
  | [] => true
  | [_] => true
  | a :: b :: t => decide (a ≤ b) && isNonDecreasing (b :: t)

/-- The second `every` in `getMarketFactors` (part_000 lines 832-833):
every element is `<=` its predecessor. -/
def isNonIncreasing : List ℚ → Bool
  | [] => true
  | [_] => true
  | a :: b :: t => decide (b ≤ a) && isNonIncreasing (b :: t)

/-- The `trend` field computed by `getMarketFactors`
(part_000 lines 829-834). The `volatility`/`confidence` fields use
`Math.sqrt` and are independent of `trend`; they are outside the claims. -/
def trendLabel (predictions : List ℚ) : String :=
  if isNonDecreasing predictions then "upward"
  else if isNonIncreasing predictions then "downward"
  else "mixed"

/-! ## DataFetchOrchestrator: the three fetch effects -/

/-- The component state slots written by the three fetch effects of
`StockNews` (part_000 lines 505-521): `news`, `loading`, `error`,
`historyData`, `zoomLevel`, `isLoading`, `predictionData`. -/
structure PanelState where
  news : List NewsItem
  loading : Bool
  error : Option String
  historyData : List StockHistoryData
  zoomLevel : ZoomLevel
  isLoading : Bool
  predictionData : Option PredictionData
deriving DecidableEq

/-- Outcome of one remote fetch: a parsed payload or a thrown error
message. -/
inductive FetchOutcome (α : Type) where
  | ok (value : α)
  | failed (msg : String)
deriving DecidableEq

/-- Net state effect of the `fetchNews` effect (part_000 lines 523-547):
`setLoading(true); setError(null)`, then `setNews` on success or
`setError` on failure, and `setLoading(false)` in `finally`. -/
def fetchNews (symbol : String) (r : FetchOutcome (List NewsItem)) (s : PanelState) : PanelState :=
  if symbol = "" then s
  else
    match r with
    | .ok value => { s with loading := false, error := none, news := value }
    | .failed msg => { s with loading := false, error := some msg }

/-- Net state effect of the `fetchHistoricalData` effect (part_000 lines
549-580): `setIsLoading(true); setError(null)`, then `setHistoryData` on
success or `setError` on failure, and `setIsLoading(false)` in `finally`.
The malformed-payload branch throws and is a `failed` outcome. -/
def fetchHistoricalData (symbol : String) (r : FetchOutcome (List StockHistoryData))
    (s : PanelState) : PanelState :=
  if symbol = "" then s
  else
    match r with
    | .ok value => { s with isLoading := false, error := none, historyData := value }
    | .failed msg => { s with isLoading := false, error := some msg }

/-- Net state effect of the `fetchPredictions` effect (part_000 lines
582-605): `setIsLoading(true); setError(null)`, then `setPredictionData`
on success; the catch block only logs, so on failure the `error` slot
keeps the `null` written at the start. -/
def fetchPredictions (symbol : String) (r : FetchOutcome PredictionData)
    (s : PanelState) : PanelState :=
  if symbol = "" then s
  else
    match r with
    | .ok value => { s with isLoading := false, error := none, predictionData := some value }
    | .failed _ => { s with isLoading := false, error := none }

/-! ## Sample inputs used by witnesses -/

/-- A concrete historical point. -/
def sampleHistPoint : StockHistoryData :=
  { date := { year := 2024, month := 1, day := 2 },
    openPrice := 10, high := 12, low := 9, close := 11, volume := 1000, price := 11 }

/-- A concrete one-point history. -/
def sampleHistory : List StockHistoryData := [sampleHistPoint]

/-- A concrete prediction series with one forecast point. -/
def samplePred : PredictionData :=
  { dates := ["2025-01-02"], predictions := [12], upper_bound := [13],
    lower_bound := [11], last_actual := 11, last_actual_date := "2024-12-31" }

/-- A concrete suggestion whose symbol exactly matches the query `"aapl"`. -/
def sugA : StockSuggestion :=
  { symbol := "AAPL", name := "Apple Inc.", exchange := "NASDAQ" }

/-- A second concrete suggestion with the same exactly-matching symbol. -/
def sugB : StockSuggestion :=
  { symbol := "AAPL", name := "Apple Hospitality", exchange := "NYSE" }

/-- A suggestion not matching the query `"aapl"`. -/
def sugC : StockSuggestion :=
  { symbol := "MSFT", name := "Microsoft Corporation", exchange := "NASDAQ" }

/-- A concrete suggestion list containing an exact match in second place. -/
def sampleSuggestions : List StockSuggestion := [sugC, sugA]

/-- A concrete suggestion list with two exact matches around a non-match. -/
def sampleSuggestionsDup : List StockSuggestion := [sugA, sugC, sugB]

/-- The initial panel state (all slots empty, default window). -/
def sInit : PanelState :=
  { news := [], loading := false, error := none, historyData := [],
    zoomLevel := .y1, isLoading := false, predictionData := none }

/-- A concrete ACTIVE gesture state with reference distance 100. -/
def gestureActive : GestureState :=
  { zoomLevel := .y5, touchStartDistance := some 100, isZooming := true }

/-- A concrete ACTIVE gesture state with reference distance 0. -/
def gestureZeroRef : GestureState :=
  { zoomLevel := .y1, touchStartDistance := some 0, isZooming := true }

/-! ## Theorems -/

/-- The Boolean non-decreasing check agrees with `List.Chain'` on `≤`. -/
theorem isNonDecreasing_iff_chain (l : List ℚ) :
    isNonDecreasing l = true ↔ List.Chain' (· ≤ ·) l := by
  induction l with
  | nil => simp [isNonDecreasing]
  | cons a t ih =>
    cases t with
    | nil => simp [isNonDecreasing]
    | cons b t2 => simp [isNonDecreasing, List.chain'_cons, ← ih]

/-- The Boolean non-increasing check agrees with `List.Chain'` on `≥`. -/
theorem isNonIncreasing_iff_chain (l : List ℚ) :
    isNonIncreasing l = true ↔ List.Chain' (· ≥ ·) l := by
  induction l with
  | nil => simp [isNonIncreasing]
  | cons a t ih =>
    cases t with
    | nil => simp [isNonIncreasing]
    | cons b t2 => simp [isNonIncreasing, List.chain'_cons, ← ih]

/-- Claim C9: the trend label of `getMarketFactors` is `"upward"` for every
non-decreasing predictions array, `"downward"` for every non-increasing
(and not non-decreasing) array, `"mixed"` otherwise; the empty and the
single-element array both yield `"upward"`, the non-decreasing check being
vacuously true and tested first. -/
theorem trendLabel_spec (l : List ℚ) :
    (trendLabel l =
      if List.Chain' (· ≤ ·) l then "upward"
      else if List.Chain' (· ≥ ·) l then "downward"
      else "mixed") ∧
    trendLabel [] = "upward" ∧ ∀ x : ℚ, trendLabel [x] = "upward" := by
  refine ⟨?_, rfl, fun x => rfl⟩
  have h1 := isNonDecreasing_iff_chain l
  have h2 := isNonIncreasing_iff_chain l
  rw [trendLabel]
  split_ifs <;> simp_all

/-- Claim C2: filtering with ALL returns the history unchanged; the year
selectors return exactly the subsequence of points whose date is at least
`now` minus 10/5/1 calendar years, preserving order (a sublist); the empty
input yields the empty output. -/
theorem getFilteredHistoryData_spec (s : List StockHistoryData) (now : CalDate) :
    getFilteredHistoryData s .all now = s ∧
    getFilteredHistoryData s .y10 now =
      s.filter (fun item => (subYears now 10).le item.date) ∧
    getFilteredHistoryData s .y5 now =
      s.filter (fun item => (subYears now 5).le item.date) ∧
    getFilteredHistoryData s .y1 now =
      s.filter (fun item => (subYears now 1).le item.date) ∧
    (∀ z, List.Sublist (getFilteredHistoryData s z now) s) ∧
    (∀ z, getFilteredHistoryData [] z now = []) ∧
    (∀ item, item ∈ getFilteredHistoryData s .y10 now ↔
      item ∈ s ∧ (subYears now 10).le item.date = true) ∧
    (∀ item, item ∈ getFilteredHistoryData s .y5 now ↔
      item ∈ s ∧ (subYears now 5).le item.date = true) ∧
    (∀ item, item ∈ getFilteredHistoryData s .y1 now ↔
      item ∈ s ∧ (subYears now 1).le item.date = true) := by
  by_cases hs : s = []
  · subst hs
    refine ⟨rfl, rfl, rfl, rfl, fun z => ?_, fun z => ?_, ?_, ?_, ?_⟩ <;>
      first
        | (cases z <;> simp [getFilteredHistoryData])
        | simp [getFilteredHistoryData]
  · have hlen : ¬ s.length = 0 := by simpa [List.length_eq_zero] using hs
    refine ⟨?_, ?_, ?_, ?_, fun z => ?_, fun z => ?_, ?_, ?_, ?_⟩
    · simp [getFilteredHistoryData, hlen]
    · simp [getFilteredHistoryData, hlen]
    · simp [getFilteredHistoryData, hlen]
    · simp [getFilteredHistoryData, hlen]
    · cases z <;> simp [getFilteredHistoryData, hlen, List.filter_sublist]
    · simp [getFilteredHistoryData]
    · intro item; simp [getFilteredHistoryData, hlen, List.mem_filter]
    · intro item; simp [getFilteredHistoryData, hlen, List.mem_filter]
    · intro item; simp [getFilteredHistoryData, hlen, List.mem_filter]

/-- Claim C1: with a prediction whose four sequences have equal length,
`getChartData` returns exactly four datasets — the historical one of the
history's length, and predicted/upper-bound/lower-bound ones of length
`len(history) + len(prediction.dates)` whose first `len(history)` entries
are the null marker; without a prediction it returns exactly one
dataset. -/
theorem getChartData_datasets_spec (h : List StockHistoryData) (p : PredictionData)
    (h1 : p.dates.length = p.predictions.length)
    (h2 : p.dates.length = p.upper_bound.length)
    (h3 : p.dates.length = p.lower_bound.length) :
    (getChartData h (some p)).datasets.length = 4 ∧
    ((getChartData h (some p)).datasets.map fun ds => ds.data.length) =
      [h.length, h.length + p.dates.length, h.length + p.dates.length,
        h.length + p.dates.length] ∧
    ((getChartData h (some p)).datasets[1]?.map fun ds => ds.data.take h.length) =
      some (List.replicate h.length none) ∧
    ((getChartData h (some p)).datasets[2]?.map fun ds => ds.data.take h.length) =
      some (List.replicate h.length none) ∧
    ((getChartData h (some p)).datasets[3]?.map fun ds => ds.data.take h.length) =
      some (List.replicate h.length none) ∧
    (getChartData h none).datasets.length = 1 := by
  have htake : ∀ l : List ℚ,
      (List.replicate h.length (none : Option ℚ) ++ l.map some).take h.length =
        List.replicate h.length none :=
    fun l => List.take_left' (List.length_replicate h.length none)
  refine ⟨rfl, ?_, ?_, ?_, ?_, rfl⟩
  · simp [getChartData, ← h1, ← h2, ← h3]
  · simp [getChartData, htake]
  · simp [getChartData, htake]
  · simp [getChartData, htake]

/-- Witness for claim C1 at a concrete one-point history and one-point
prediction. -/
theorem getChartData_datasets_witness :
    (samplePred.dates.length = samplePred.predictions.length ∧
      samplePred.dates.length = samplePred.upper_bound.length ∧
      samplePred.dates.length = samplePred.lower_bound.length) ∧
    (getChartData sampleHistory (some samplePred)).datasets.length = 4 ∧
    (getChartData sampleHistory none).datasets.length = 1 := by
  have hs := getChartData_datasets_spec sampleHistory samplePred rfl rfl rfl
  exact ⟨⟨rfl, rfl, rfl⟩, hs.1, hs.2.2.2.2.2⟩

/-- Counterexample to claim C6: the prediction label segment is the raw
`dates` strings, not the output of the date-formatting step, so the labels
differ from the spec-modelled labels already on a one-point prediction. -/
theorem getChartData_labels_counterexample :
    (getChartData [] (some samplePred)).labels ≠ chartLabelsSpec [] (some samplePred) := by
  decide

/-- Claim C6 as amended: the labels of `getChartData` are the formatted
display-date strings of the filtered history followed by the raw
(unformatted) date strings of `prediction.dates` — only the historical
segment goes through the date-formatting step; when the prediction is
absent the code and the spec-modelled labels agree. -/
theorem getChartData_labels_spec (h : List StockHistoryData) (p : Option PredictionData) :
    (getChartData h p).labels =
      (h.map fun item => formatMMMddyyyy item.date) ++
        (match p with
         | some pd => pd.dates
         | none => []) ∧
    (getChartData h none).labels = chartLabelsSpec h none := by
  cases p <;> exact ⟨rfl, by simp [getChartData, chartLabelsSpec]⟩

/-- Moves are a no-op in a state whose reference distance is the falsy 0. -/
theorem handleTouchMove_zeroRef (s : GestureState)
    (h : s.touchStartDistance = some 0) (n : Nat) (d : ℚ) :
    handleTouchMove n d s = s := by
  simp [handleTouchMove, h, touchTruthy]

/-- Any sequence of moves is a no-op from a zero-reference state. -/
theorem foldl_handleTouchMove_zeroRef (s : GestureState)
    (h : s.touchStartDistance = some 0) (moves : List (Nat × ℚ)) :
    moves.foldl (fun st p => handleTouchMove p.1 p.2 st) s = s := by
  induction moves with
  | nil => rfl
  | cons m t ih => simp [List.foldl_cons, handleTouchMove_zeroRef s h, ih]

/-- Claim C10: a two-point contact starting with both points at the same
position records reference distance 0; the move handler treats the zero
reference distance as absent, so every subsequent move (in fact any
sequence of moves) leaves the whole gesture state — selector and
reference distance included — unchanged until the gesture ends. -/
theorem zeroReference_noop (s s2 : GestureState) (n : Nat) (d : ℚ)
    (moves : List (Nat × ℚ)) (h0 : s2.touchStartDistance = some 0) :
    (handleTouchStart 2 0 s).touchStartDistance = some 0 ∧
    (handleTouchStart 2 0 s).isZooming = true ∧
    (handleTouchStart 2 0 s).zoomLevel = s.zoomLevel ∧
    handleTouchMove n d s2 = s2 ∧
    moves.foldl (fun st p => handleTouchMove p.1 p.2 st) (handleTouchStart 2 0 s) =
      handleTouchStart 2 0 s := by
    refine ⟨rfl, rfl, rfl, handleTouchMove_zeroRef s2 h0 n d, ?_⟩
    exact foldl_handleTouchMove_zeroRef _ rfl moves

/-- Witness for claim C10 at a concrete zero-reference state and concrete
move events. -/
theorem zeroReference_noop_witness :
    gestureZeroRef.touchStartDistance = some 0 ∧
    handleTouchMove 2 200 gestureZeroRef = gestureZeroRef ∧
    [((2 : Nat), (120 : ℚ)), (2, 300)].foldl
        (fun st p => handleTouchMove p.1 p.2 st) (handleTouchStart 2 0 (idleState .all)) =
      handleTouchStart 2 0 (idleState .all) := by
  have hs := zeroReference_noop (idleState .all) gestureZeroRef 2 200
    [((2 : Nat), (120 : ℚ)), (2, 300)] rfl
  exact ⟨rfl, hs.2.2.2.1, hs.2.2.2.2⟩

/-- Claim C3: in the ACTIVE state with reference distance `d > 0`, a
two-point move at distance `c` changes the selector by at most one step,
changes the state only when `|c - d| > 50`, and any move with
`|c - d| > 50` resets the reference distance to `c` — so a single
threshold crossing yields exactly one selector step. -/
theorem handleTouchMove_one_step (s : GestureState) (d c : ℚ)
    (hz : s.isZooming = true) (hd : s.touchStartDistance = some d) (hpos : 0 < d) :
    ((levelIdx (handleTouchMove 2 c s).zoomLevel : Int) - levelIdx s.zoomLevel).natAbs ≤ 1 ∧
    (|c - d| ≤ 50 → handleTouchMove 2 c s = s) ∧
    (50 < |c - d| → (handleTouchMove 2 c s).touchStartDistance = some c) := by
  have hne : d ≠ 0 := hpos.ne'
  by_cases habs : 50 < |c - d|
  · refine ⟨?_, fun hle => absurd habs (not_lt.mpr hle), fun _ => ?_⟩
    · by_cases hneg : c - d < 0 <;>
        cases hlevel : s.zoomLevel <;>
          simp [handleTouchMove, hz, hd, touchTruthy, hne, habs, hneg, hlevel,
            zoomInStep, zoomOutStep, levelIdx]
    · simp [handleTouchMove, hz, hd, touchTruthy, hne, habs]
  · have heq : handleTouchMove 2 c s = s := by
      simp [handleTouchMove, hz, hd, touchTruthy, hne, habs]
    exact ⟨by simp [heq], fun _ => heq, fun hlt => absurd hlt habs⟩

/-- Witness for claim C3 at the concrete ACTIVE state with reference 100
and a move at distance 200. -/
theorem handleTouchMove_one_step_witness :
    gestureActive.isZooming = true ∧
    gestureActive.touchStartDistance = some 100 ∧
    (0 : ℚ) < 100 ∧
    (50 < |(200 : ℚ) - 100| →
      (handleTouchMove 2 200 gestureActive).touchStartDistance = some 200) := by
  have hs := handleTouchMove_one_step gestureActive 100 200 rfl rfl (by norm_num)
  exact ⟨rfl, rfl, by norm_num, hs.2.2⟩

/-- A two-point move from an ACTIVE state whose delta exceeds the
threshold positively narrows the window one step and resets the
reference. -/
theorem handleTouchMove_narrow (z : ZoomLevel) (d c : ℚ) (hne : d ≠ 0)
    (habs : 50 < |c - d|) (hneg : ¬ c - d < 0) :
    handleTouchMove 2 c
        { zoomLevel := z, touchStartDistance := some d, isZooming := true } =
      { zoomLevel := zoomInStep z, touchStartDistance := some c, isZooming := true } := by
  simp [handleTouchMove, touchTruthy, hne, habs, hneg]

/-- Claim C7: from IDLE, the sequence (two-point start at distance `d`,
move at `d+60`, move at `d+60` past the updated reference, end) leaves
selector ONE_YEAR at ONE_YEAR; the same sequence from ALL passes through
TEN_YEAR after the first move and ends at FIVE_YEAR. -/
theorem gesture_sequence (d : ℚ) (hd : 0 < d) :
    (runEvents (idleState .y1)
        [.start 2 d, .move 2 (d + 60), .move 2 (d + 120), .finish]).zoomLevel = .y1 ∧
    (runEvents (idleState .all) [.start 2 d, .move 2 (d + 60)]).zoomLevel = .y10 ∧
    (runEvents (idleState .all)
        [.start 2 d, .move 2 (d + 60), .move 2 (d + 120), .finish]).zoomLevel = .y5 := by
  have hne : d ≠ 0 := hd.ne'
  have hne2 : d + 60 ≠ 0 := by positivity
  have hd1 : d + 60 - d = 60 := by ring
  have hd2 : d + 120 - (d + 60) = 60 := by ring
  have habs : (50 : ℚ) < |60| := by norm_num
  have hpos : ¬ (60 : ℚ) < 0 := by norm_num
  have hstart : ∀ z, handleTouchStart 2 d (idleState z) =
      { zoomLevel := z, touchStartDistance := some d, isZooming := true } := fun z => rfl
  have hm1 : ∀ z, handleTouchMove 2 (d + 60)
      { zoomLevel := z, touchStartDistance := some d, isZooming := true } =
      { zoomLevel := zoomInStep z, touchStartDistance := some (d + 60), isZooming := true } := by
    intro z
    exact handleTouchMove_narrow z d (d + 60) hne (by rw [hd1]; exact habs)
      (by rw [hd1]; exact hpos)
  have hm2 : ∀ z, handleTouchMove 2 (d + 120)
      { zoomLevel := z, touchStartDistance := some (d + 60), isZooming := true } =
      { zoomLevel := zoomInStep z, touchStartDistance := some (d + 120), isZooming := true } := by
    intro z
    exact handleTouchMove_narrow z (d + 60) (d + 120) hne2 (by rw [hd2]; exact habs)
      (by rw [hd2]; exact hpos)
  refine ⟨?_, ?_, ?_⟩ <;>
    simp [runEvents, stepEvent, hstart, hm1, hm2, handleTouchEnd, zoomInStep]

/-- Witness for claim C7 at the concrete start distance 100. -/
theorem gesture_sequence_witness :
    (0 : ℚ) < 100 ∧
    (runEvents (idleState .all)
        [.start 2 100, .move 2 (100 + 60), .move 2 (100 + 120), .finish]).zoomLevel = .y5 := by
  have hs := gesture_sequence 100 (by norm_num)
  exact ⟨by norm_num, hs.2.2⟩

/-- Counterexample to claim C8: the three fetches do not have their own
error slots — a failed news fetch records its message in the single
`error` slot, and a subsequent prediction fetch (here itself failing)
overwrites that slot back to `null`, so a state write of one fetch does
not leave the error state of the others unchanged. -/
theorem fetch_error_slot_shared :
    (fetchNews "AAPL" (.failed "news down") sInit).error = some "news down" ∧
    (fetchPredictions "AAPL" (.failed "predict down")
          (fetchNews "AAPL" (.failed "news down") sInit)).error ≠
      (fetchNews "AAPL" (.failed "news down") sInit).error := by
  decide

/-- Claim C8 as amended: the three fetches are independent in their data
slots — each of `news`, `historyData`, `predictionData` is written only by
its own fetch, and no fetch touches another's data — but the flags are
shared: the news fetch owns the `loading` flag while the history and
prediction fetches both use `isLoading`, and all three use the single
`error` slot, which the prediction fetch always leaves cleared
(`null`). -/
theorem fetch_frame_spec (symbol : String) (s : PanelState)
    (rn : FetchOutcome (List NewsItem)) (rh : FetchOutcome (List StockHistoryData))
    (rp : FetchOutcome PredictionData) :
    ((fetchNews symbol rn s).historyData = s.historyData ∧
      (fetchNews symbol rn s).predictionData = s.predictionData ∧
      (fetchNews symbol rn s).isLoading = s.isLoading ∧
      (fetchNews symbol rn s).zoomLevel = s.zoomLevel) ∧
    ((fetchHistoricalData symbol rh s).news = s.news ∧
      (fetchHistoricalData symbol rh s).loading = s.loading ∧
      (fetchHistoricalData symbol rh s).predictionData = s.predictionData ∧
      (fetchHistoricalData symbol rh s).zoomLevel = s.zoomLevel) ∧
    ((fetchPredictions symbol rp s).news = s.news ∧
      (fetchPredictions symbol rp s).loading = s.loading ∧
      (fetchPredictions symbol rp s).historyData = s.historyData ∧
      (fetchPredictions symbol rp s).zoomLevel = s.zoomLevel) ∧
    (symbol ≠ "" → (fetchPredictions symbol rp s).error = none) := by
  cases rn <;> cases rh <;> cases rp <;> by_cases hsym : symbol = "" <;>
    simp [fetchNews, fetchHistoricalData, fetchPredictions, hsym]

/-- Witness for the amended claim C8 at a concrete symbol, state and
outcomes. -/
theorem fetch_frame_spec_witness :
    ("AAPL" : String) ≠ "" ∧
    (fetchPredictions "AAPL" (.failed "predict down") sInit).error = none := by
  have hs := fetch_frame_spec "AAPL" sInit (.ok []) (.ok []) (.failed "predict down")
  exact ⟨by decide, hs.2.2.2 (by decide)⟩

/-- JS `startsWith` implies `includes`. -/
theorem strContains_of_strStartsWith {s p : String}
    (h : strStartsWith s p = true) : strContains s p = true := by
  simp only [strStartsWith, strContains, decide_eq_true_eq] at h ⊢
  exact h.isInfix

/-- The comparator orders suggestions exactly by their relevance band:
`a` may precede `b` iff `matchRank a ≤ matchRank b`. -/
theorem suggestionLE_eq (q : String) (a b : StockSuggestion) :
    suggestionLE q a b = decide (matchRank a q ≤ matchRank b q) := by
  unfold suggestionLE suggestionCmp matchRank
  by_cases h1 : a.symbol = jsToUpper q <;>
  by_cases h2 : b.symbol = jsToUpper q <;>
  by_cases h3 : strStartsWith a.symbol (jsToUpper q) = true <;>
  by_cases h4 : strStartsWith b.symbol (jsToUpper q) = true <;>
  by_cases h5 : strContains a.symbol (jsToUpper q) = true <;>
  by_cases h6 : strContains b.symbol (jsToUpper q) = true <;>
  first
    | exact absurd (strContains_of_strStartsWith h3) h5
    | exact absurd (strContains_of_strStartsWith h4) h6
    | simp [h1, h2, h3, h4, h5, h6]

/-- The comparator relation is total. -/
theorem suggestionLE_total (q : String) (a b : StockSuggestion) :
    (suggestionLE q a b || suggestionLE q b a) = true := by
  simp only [suggestionLE_eq, Bool.or_eq_true, decide_eq_true_eq]
  omega

/-- The comparator relation is transitive. -/
theorem suggestionLE_trans (q : String) (a b c : StockSuggestion)
    (hab : suggestionLE q a b = true) (hbc : suggestionLE q b c = true) :
    suggestionLE q a c = true := by
  simp only [suggestionLE_eq, decide_eq_true_eq] at hab hbc ⊢
  omega

/-- Relevance band 0 characterizes the exact symbol match. -/
theorem matchRank_eq_zero (a : StockSuggestion) (q : String) :
    matchRank a q = 0 ↔ a.symbol = jsToUpper q := by
  unfold matchRank
  split_ifs <;> simp_all

/-- A non-empty string has positive length. -/
theorem string_length_pos {q : String} (h : q ≠ "") : ¬ q.length < 1 := by
  cases q with
  | mk data =>
    cases data with
    | nil => exact absurd rfl h
    | cons c t => simp [String.length]

/-- Claim C4: `rankSuggestions` of the empty list is empty for every
query, and for a non-empty query, whenever the input contains an item
whose symbol equals the uppercased query, the first item of the output
has exactly that symbol, regardless of the input order. -/
theorem rank_exact_first (l : List StockSuggestion) (q : String) (x : StockSuggestion)
    (hq : q ≠ "") (hx : x ∈ l) (hsym : x.symbol = jsToUpper q) :
    (∀ q2 : String, rankSuggestions [] q2 = []) ∧
    ∃ y, (rankSuggestions l q).head? = some y ∧ y.symbol = jsToUpper q := by
  constructor
  · intro q2
    by_cases hq2 : q2.length < 1 <;> simp [rankSuggestions, hq2]
  · rw [rankSuggestions, if_neg (string_length_pos hq)]
    have hmem : x ∈ l.mergeSort (suggestionLE q) := List.mem_mergeSort.mpr hx
    have hsorted : (l.mergeSort (suggestionLE q)).Pairwise (suggestionLE q · ·) :=
      List.sorted_mergeSort (suggestionLE_trans q) (suggestionLE_total q) l
    cases hL : l.mergeSort (suggestionLE q) with
    | nil => rw [hL] at hmem; cases hmem
    | cons y t =>
      rw [hL] at hmem hsorted
      refine ⟨y, rfl, ?_⟩
      rcases List.mem_cons.mp hmem with h | h
      · rw [← h]; exact hsym
      · have hle : suggestionLE q y x = true :=
          (List.pairwise_cons.mp hsorted).1 x h
        rw [suggestionLE_eq, decide_eq_true_eq] at hle
        have hx0 : matchRank x q = 0 := (matchRank_eq_zero x q).mpr hsym
        exact (matchRank_eq_zero y q).mp (by omega)

/-- Witness for claim C4 at a concrete list whose exact match sits in
second place. -/
theorem rank_exact_first_witness :
    (("aapl" : String) ≠ "" ∧ sugA ∈ sampleSuggestions ∧
      sugA.symbol = jsToUpper "aapl") ∧
    ∃ y, (rankSuggestions sampleSuggestions "aapl").head? = some y ∧
      y.symbol = jsToUpper "aapl" := by
  have hs := rank_exact_first sampleSuggestions "aapl" sugA
    (by decide) (by decide) (by decide)
  exact ⟨⟨by decide, by decide, by decide⟩, hs.2⟩

/-- Counterexample to claim C5: two distinct suggestions whose symbols
both exactly equal the uppercased query are not separated by the
exact-match, starts-with or contains rules, yet the comparator returns
`-1` for them in either order (not `0`), so the "comparator yields 0 on
unseparated pairs" part of the claim is false (and the comparator is not
even consistent on such pairs). -/
theorem suggestionCmp_exact_pair :
    (sugA.symbol = jsToUpper "aapl" ↔ sugB.symbol = jsToUpper "aapl") ∧
    strStartsWith sugA.symbol (jsToUpper "aapl") =
      strStartsWith sugB.symbol (jsToUpper "aapl") ∧
    strContains sugA.symbol (jsToUpper "aapl") =
      strContains sugB.symbol (jsToUpper "aapl") ∧
    suggestionCmp sugA sugB "aapl" = -1 ∧
    suggestionCmp sugB sugA "aapl" = -1 := by
  decide

/-- Claim C5 as amended: `rankSuggestions` is a deterministic (pure)
function of its input, the comparator returns 0 for every pair not
separated by the exact-match/starts-with/contains rules in which the two
symbols are not both exact matches (on a doubly-exact pair it returns
`-1` in both orders instead), and the stable sort preserves the original
relative order of every pair the comparator does not order strictly —
including several items whose symbol exactly equals the uppercased
query. -/
theorem rank_stable (q : String) (l : List StockSuggestion) (a b : StockSuggestion)
    (hq : q ≠ "") (hsub : List.Sublist [a, b] l) (hle : suggestionLE q a b = true) :
    List.Sublist [a, b] (rankSuggestions l q) ∧
    (∀ a2 b2 : StockSuggestion,
      (a2.symbol = jsToUpper q ↔ b2.symbol = jsToUpper q) →
      strStartsWith a2.symbol (jsToUpper q) = strStartsWith b2.symbol (jsToUpper q) →
      strContains a2.symbol (jsToUpper q) = strContains b2.symbol (jsToUpper q) →
      ¬(a2.symbol = jsToUpper q ∧ b2.symbol = jsToUpper q) →
      suggestionCmp a2 b2 q = 0) ∧
    rankSuggestions l q = rankSuggestions l q := by
  refine ⟨?_, ?_, rfl⟩
  · rw [rankSuggestions, if_neg (string_length_pos hq)]
    exact List.pair_sublist_mergeSort (suggestionLE_trans q) (suggestionLE_total q) hle hsub
  · intro a2 b2 hex hsw hct hboth
    unfold suggestionCmp
    by_cases h1 : a2.symbol = jsToUpper q
    · exact absurd ⟨h1, hex.mp h1⟩ hboth
    · have h2 : ¬ b2.symbol = jsToUpper q := fun hb => h1 (hex.mpr hb)
      simp [h1, h2, hsw, hct]

/-- Witness for the amended claim C5: two exact matches separated by a
non-match keep their original relative order in the output. -/
theorem rank_stable_witness :
    (("aapl" : String) ≠ "" ∧ List.Sublist [sugA, sugB] sampleSuggestionsDup ∧
      suggestionLE "aapl" sugA sugB = true) ∧
    List.Sublist [sugA, sugB] (rankSuggestions sampleSuggestionsDup "aapl") := by
  have hs := rank_stable "aapl" sampleSuggestionsDup sugA sugB
    (by decide) (by decide) (by decide)
  exact ⟨⟨by decide, by decide, by decide⟩, hs.1⟩

end StockPredict
